import Mathlib

/-!
Verification of the transcript-extraction core of the repository
(`src/youtube_extractor.py`): the URL parser `parse_youtube_url`, the
time-string parser `_parse_time_param`, and the segment selector inside
`extract_segment`.

The embedding models the ASCII fragment of Python's string primitives
(`str.isdigit`, `int(...)`, the `\d` regex class, `str.lower`), which is
the fragment every behaviour below exercises; Unicode-only divergences
(superscript digits, non-ASCII case folding, underscore digit grouping
accepted by `int`) are noted at the definition they would affect.
Python exceptions are modelled with `Option`/`Except`: a `none` / `.error`
result is a raised exception.
-/

namespace YT

/-- ASCII decimal digit, the model of the regex class `\d` and of the
per-character test of `str.isdigit` (Python additionally accepts Unicode
digits there, which `int(...)` then rejects; no claim exercises these). -/
def isDigitChar (c : Char) : Bool := c.isDigit

/-- Numeric value of a list of decimal digits, most significant first:
the model of Python `int` applied to a digit string. -/
def digitsVal (l : List Char) : Nat :=
  l.foldl (fun acc c => acc * 10 + (c.toNat - '0'.toNat)) 0

/-- Model of Python `int(s)` on a string: optional surrounding whitespace,
an optional single `+`/`-` sign, then a non-empty run of decimal digits.
(Python also accepts underscore-grouped digits, e.g. `1_0`; no input in
this development uses them.)  `none` models a raised `ValueError`. -/
def pyIntParse (l : List Char) : Option Int :=
  match ((l.dropWhile Char.isWhitespace).reverse.dropWhile Char.isWhitespace).reverse with
  | [] => none
  | c :: rest =>
      if c = '-' then
        if rest ≠ [] ∧ rest.all isDigitChar then some (-(digitsVal rest : Int)) else none
      else if c = '+' then
        if rest ≠ [] ∧ rest.all isDigitChar then some ((digitsVal rest : Int)) else none
      else if (c :: rest).all isDigitChar then some ((digitsVal (c :: rest) : Int))
      else none

/-- Model of Python `str.split(sep)` for a one-character separator:
always returns at least one (possibly empty) part. -/
def splitOnChar (c : Char) : List Char → List (List Char)
  | [] => [[]]
  | x :: xs =>
      if x = c then [] :: splitOnChar c xs
      else
        match splitOnChar c xs with
        | [] => [[x]]
        | p :: ps => (x :: p) :: ps

/-- Auxiliary scan for `searchUnit`: `cur` carries the value of the digit
run ending just before the current position (`none` when the previous
character was not a digit). -/
def scanUnitAux (c : Char) (cur : Option Nat) : List Char → Option Nat
  | [] => none
  | x :: xs =>
      if isDigitChar x then
        scanUnitAux c (some ((cur.getD 0) * 10 + (x.toNat - '0'.toNat))) xs
      else if x = c then
        match cur with
        | some n => some n
        | none => scanUnitAux c none xs
      else scanUnitAux c none xs

/-- Model of Python `re.search(r'(\d+)' + unit, s)` for a unit letter:
the leftmost maximal digit run immediately followed by `c`, as a number.
(`re.search` scans left to right; at a digit the greedy `\d+` consumes the
whole run, so a match at that position requires the character after the
run to be `c`.) -/
def searchUnit (c : Char) (l : List Char) : Option Nat :=
  scanUnitAux c none l

/-- Model of Python `re.match(r'^(\d+)$', s)`: the whole string is a
non-empty digit run. -/
def fullIntMatch (l : List Char) : Option Nat :=
  if l ≠ [] ∧ l.all isDigitChar then some (digitsVal l) else none

/-- The compound-duration section of `_parse_time_param`
(src/youtube_extractor.py lines 117-140): independent regex searches for
`(\d+)h`, `(\d+)m`, `(\d+)s`; when no `s` match and neither an `h` nor an
`m` match, fall back to a full-string integer match. -/
def compoundSeconds (l : List Char) : Nat :=
  (match searchUnit 'h' l with | some n => n * 3600 | none => 0)
  + (match searchUnit 'm' l with | some n => n * 60 | none => 0)
  + (match searchUnit 's' l with
     | some n => n
     | none =>
        if searchUnit 'h' l = none ∧ searchUnit 'm' l = none then
          match fullIntMatch l with | some n => n | none => 0
        else 0)

/-- Embedding of `YouTubeExtractor._parse_time_param`
(src/youtube_extractor.py lines 82-140).  `none` models an uncaught
`ValueError` raised by `int(...)` on a malformed colon part. -/
def _parse_time_param (time_str : String) : Option Int :=
  if time_str.data = [] then some 0
  else if time_str.data.all isDigitChar then some ((digitsVal time_str.data : Int))
  else if ':' ∈ time_str.data then
    match splitOnChar ':' time_str.data with
    | [p1, p2, p3] =>
        match pyIntParse p1, pyIntParse p2, pyIntParse p3 with
        | some h, some m, some s => some (h * 3600 + m * 60 + s)
        | _, _, _ => none
    | [p1, p2] =>
        match pyIntParse p1, pyIntParse p2 with
        | some m, some s => some (m * 60 + s)
        | _, _ => none
    | _ => some ((compoundSeconds time_str.data : Int))
  else some ((compoundSeconds time_str.data : Int))

/-! ## Segment selector (`YouTubeExtractor.extract_segment`, lines 178-279)

The source duck-types each transcript entry (attribute-style objects from
the newer transcript library, mapping-style dicts from the older one);
both branches of that `hasattr` dispatch read the same three fields
(`start`, `duration`, `text`) and compute the same values, so the
embedding uses the single normalised record below.  Times are modelled as
rationals: the Python values are floats compared exactly, and every
behaviour at issue uses exactly representable values. -/

/-- One transcript caption line: `start`/`duration` in seconds, `text`
its spoken text. -/
structure CaptionEntry where
  start : ℚ
  duration : ℚ
  text : String
deriving DecidableEq

/-- Output of the selector: the fields of the source's `VideoSegment`
that the selection logic produces (the rebuilt `url` field is URL string
formatting, outside the selector). -/
structure ExtractedSegment where
  video_id : String
  start_seconds : ℚ
  end_seconds : ℚ
  text : String
  entries : List CaptionEntry
deriving DecidableEq

/-- An `end_time` argument of `extract_segment`: Python accepts either a
time string (parsed with `_parse_time_param`) or an integer. -/
inductive TimeParam where
  | str (s : String)
  | int (n : Int)
deriving DecidableEq

/-- Python truthiness of the `duration` argument at line 218
(`elif duration:`): `None` and `0` are both falsy. -/
def durationTruthy : Option Int → Bool
  | none => false
  | some d => d != 0

/-- End-boundary resolution of `extract_segment`
(src/youtube_extractor.py lines 211-230): explicit `end_time` first
(parsed when a string, which can raise, modelled by `none`); else a
truthy `duration` gives `start_seconds + duration`; else the last
entry's `start + duration`, or `start_seconds` when there are no
entries. -/
def resolveEnd (entries : List CaptionEntry) (duration : Option Int)
    (start_seconds : ℚ) (end_time : Option TimeParam) : Option ℚ :=
  match end_time with
  | some (.str s) =>
      match _parse_time_param s with
      | some n => some ((n : ℚ))
      | none => none
  | some (.int n) => some ((n : ℚ))
  | none =>
      match duration with
      | some d =>
          if d ≠ 0 then some (start_seconds + (d : ℚ))
          else
            match entries.getLast? with
            | some last => some (last.start + last.duration)
            | none => some start_seconds
      | none =>
          match entries.getLast? with
          | some last => some (last.start + last.duration)
          | none => some start_seconds

/-- The per-entry overlap test of the selection loop (line 257):
`segment_end >= start_seconds and segment_start <= end_seconds`. -/
def overlaps (start_seconds end_seconds : ℚ) (e : CaptionEntry) : Bool :=
  decide (start_seconds ≤ e.start + e.duration ∧ e.start ≤ end_seconds)

/-- The entries the selection loop keeps, in their original order. -/
def selectEntries (entries : List CaptionEntry)
    (start_seconds end_seconds : ℚ) : List CaptionEntry :=
  entries.filter (overlaps start_seconds end_seconds)

/-- Model of Python `' '.join(parts)`: the parts concatenated with a
single space between consecutive parts. -/
def joinSpace : List String → String
  | [] => ""
  | [x] => x
  | x :: xs => x ++ " " ++ joinSpace xs

/-- The selection loop of `extract_segment` (lines 232-259): one pass over
the entries appending each overlapping entry to `relevant_segments` and
its text to `combined_text`. -/
def selectionFold (start_seconds end_seconds : ℚ) (entries : List CaptionEntry) :
    List CaptionEntry × List String :=
  entries.foldl
    (fun (acc : List CaptionEntry × List String) seg =>
      if overlaps start_seconds end_seconds seg then
        (acc.1 ++ [seg], acc.2 ++ [seg.text])
      else acc)
    ([], [])

/-- Embedding of the selection core of `YouTubeExtractor.extract_segment`
(lines 211-279), starting from the already-resolved `start_seconds`
(lines 196-206 resolve it from the URL and the `start_time` argument);
line 262 joins the selected texts with single spaces.  `none` models a
raised exception (a malformed `end_time` string). -/
def extract_segment (video_id : String) (entries : List CaptionEntry)
    (duration : Option Int) (start_seconds : ℚ)
    (end_time : Option TimeParam) : Option ExtractedSegment :=
  match resolveEnd entries duration start_seconds end_time with
  | none => none
  | some end_seconds =>
      some { video_id := video_id
             start_seconds := start_seconds
             end_seconds := end_seconds
             text := joinSpace (selectionFold start_seconds end_seconds entries).2
             entries := (selectionFold start_seconds end_seconds entries).1 }

/-! ## URL parser (`YouTubeExtractor.parse_youtube_url`, lines 32-80)

The embedding models the fragment of `urllib.parse.urlparse` /
`parse_qs` the function reads: `hostname`, `path` and `query`, and
first-value query lookup with blank values dropped. -/

/-- A character allowed in a URL scheme (`urllib.parse.scheme_chars`). -/
def isSchemeChar (c : Char) : Bool :=
  c.isAlpha || c.isDigit || c = '+' || c = '-' || c = '.'

/-- Is this hex digit usable by percent-decoding? -/
def isHexChar (c : Char) : Bool :=
  c.isDigit || ('a' ≤ c ∧ c ≤ 'f') || ('A' ≤ c ∧ c ≤ 'F')

/-- Value of a hex digit. -/
def hexVal (c : Char) : Nat :=
  if c.isDigit then c.toNat - '0'.toNat
  else if 'a' ≤ c ∧ c ≤ 'f' then c.toNat - 'a'.toNat + 10
  else c.toNat - 'A'.toNat + 10

/-- Model of `parse_qs`'s value decoding: `.replace('+', ' ')` followed by
`unquote`.  A valid `%XX` pair decodes to the byte's character (accurate
for the ASCII range; multi-byte UTF-8 sequences, which no claim uses, are
decoded byte-per-byte here); an invalid `%` is kept literally, as in
Python. -/
def unquotePlus : List Char → List Char
  | [] => []
  | '%' :: a :: b :: rest =>
      if isHexChar a ∧ isHexChar b then
        Char.ofNat (hexVal a * 16 + hexVal b) :: unquotePlus rest
      else '%' :: unquotePlus (a :: b :: rest)
  | '+' :: rest => ' ' :: unquotePlus rest
  | x :: rest => x :: unquotePlus rest

/-- Model of `urllib.parse.parse_qsl(query)` with the default arguments:
chunks split on `&`; empty chunks skipped; chunks without `=` skipped;
pairs with an empty value skipped (`keep_blank_values=False`); names and
values decoded with `unquotePlus`. -/
def parse_qsl (q : List Char) : List (String × String) :=
  (splitOnChar '&' q).foldr
    (fun chunk acc =>
      if chunk = [] then acc
      else
        let name := chunk.takeWhile (· ≠ '=')
        if name.length < chunk.length then
          let value := chunk.drop (name.length + 1)
          if value = [] then acc
          else ((unquotePlus name).asString, (unquotePlus value).asString) :: acc
        else acc)
    []

/-- `parse_qs(query).get(key, [None])[0]`: the value of the first
occurrence of `key`, if any. -/
def qsGet (q : List Char) (key : String) : Option String :=
  ((parse_qsl q).find? (fun p => p.1 = key)).map (·.2)

/-- The components of a parsed URL that `parse_youtube_url` reads. -/
structure UrlParts where
  hostname : Option String
  path : List Char
  query : List Char
deriving DecidableEq

/-- The part of a netloc after its last `@` (Python
`netloc.rpartition('@')`, the userinfo stripped). -/
def afterLastAt (l : List Char) : List Char :=
  (splitOnChar '@' l).getLastD []

/-- Model of `urllib.parse.urlparse` restricted to the read components,
following CPython's `urlsplit`: an optional scheme (a leading run of
scheme characters starting with an ASCII letter, ended by the URL's first
`:`), then a netloc only after a literal `//`, delimited by `/`, `?` or
`#`; then the fragment is split off at the first `#` and the query at the
first `?`.  `hostname` is the netloc after its last `@` and before its
first `:`, lowercased (ASCII), or `none` when empty. -/
def urlparse (l : List Char) : UrlParts :=
  let pre := l.takeWhile (· ≠ ':')
  let rest :=
    if pre.length < l.length ∧ pre ≠ [] ∧ pre.head?.any Char.isAlpha ∧ pre.all isSchemeChar
    then l.drop (pre.length + 1) else l
  let netloc :=
    match rest with
    | '/' :: '/' :: r => r.takeWhile (fun c => ¬(c = '/' ∨ c = '?' ∨ c = '#'))
    | _ => []
  let rest2 :=
    match rest with
    | '/' :: '/' :: r => r.dropWhile (fun c => ¬(c = '/' ∨ c = '?' ∨ c = '#'))
    | _ => rest
  let beforeFrag := rest2.takeWhile (· ≠ '#')
  let path := beforeFrag.takeWhile (· ≠ '?')
  let query :=
    if path.length < beforeFrag.length then beforeFrag.drop (path.length + 1) else []
  let host := ((afterLastAt netloc).takeWhile (· ≠ ':')).map Char.toLower
  { hostname := if host = [] then none else some host.asString
    path := path
    query := query }

/-- Model of Python's substring test `needle in haystack`. -/
def hasSubstring (needle : List Char) : List Char → Bool
  | [] => needle.isEmpty
  | x :: xs => needle.isPrefixOf (x :: xs) || hasSubstring needle xs

/-- A character of the identifier class `[a-zA-Z0-9_-]` of the embed
regex. -/
def isIdChar (c : Char) : Bool :=
  c.isAlpha || c.isDigit || c = '_' || c = '-'

/-- Model of `re.search(r'embed/([a-zA-Z0-9_-]+)', url)`: the first
position where the literal `embed/` is followed by at least one
identifier character; the captured group is the maximal identifier run
there. -/
def searchEmbed : List Char → Option (List Char)
  | [] => none
  | x :: xs =>
      if "embed/".data.isPrefixOf (x :: xs) then
        let run := ((x :: xs).drop 6).takeWhile isIdChar
        if run ≠ [] then some run else searchEmbed xs
      else searchEmbed xs

/-- The exceptions `parse_youtube_url` can raise: the explicit
`ValueError("Could not extract video ID from URL: ...")` at line 78
(the spec's `InvalidURL`), and the `ValueError` an inline `int(...)` /
`_parse_time_param` call raises on a malformed time value. -/
inductive PyError where
  | invalidURL (url : String)
  | valueError
deriving DecidableEq

instance {ε α : Type} [DecidableEq ε] [DecidableEq α] : DecidableEq (Except ε α) := fun x y =>
  match x, y with
  | .ok a, .ok b =>
      if h : a = b then isTrue (by rw [h]) else isFalse (fun hh => by cases hh; exact h rfl)
  | .error a, .error b =>
      if h : a = b then isTrue (by rw [h]) else isFalse (fun hh => by cases hh; exact h rfl)
  | .ok _, .error _ => isFalse (fun h => by cases h)
  | .error _, .ok _ => isFalse (fun h => by cases h)

/-- Lines 77-80 of `parse_youtube_url`: `if not video_id: raise ...;
return video_id, start_time` (Python falsiness: `None` or the empty
string). -/
def finalize (url : String) (vid : Option String) (st : Option Int) :
    Except PyError (String × Option Int) :=
  match vid with
  | none => .error (.invalidURL url)
  | some v => if v = "" then .error (.invalidURL url) else .ok (v, st)

/-- Embedding of `YouTubeExtractor.parse_youtube_url`
(src/youtube_extractor.py lines 32-80).  Branch order follows the
source's `if`/`elif` chain: the `youtube.com` host test runs first, so
the embed branch is reachable only for URLs whose parsed hostname is
neither a `youtube.com` nor a `youtu.be` host.  Inside the first branch
the query is read only when the path is exactly `/watch`. -/
def parse_youtube_url (url : String) : Except PyError (String × Option Int) :=
  if (urlparse url.data).hostname = some "www.youtube.com" ∨
     (urlparse url.data).hostname = some "youtube.com" then
    if (urlparse url.data).path = "/watch".data then
      match qsGet (urlparse url.data).query "t" with
      | some ts =>
          match _parse_time_param ts with
          | some n => finalize url (qsGet (urlparse url.data).query "v") (some n)
          | none => .error .valueError
      | none => finalize url (qsGet (urlparse url.data).query "v") none
    else finalize url none none
  else if (urlparse url.data).hostname = some "youtu.be" ∨
          (urlparse url.data).hostname = some "www.youtu.be" then
    match qsGet (urlparse url.data).query "t" with
    | some ts =>
        match _parse_time_param ts with
        | some n =>
            finalize url (some (((urlparse url.data).path.dropWhile (· = '/')).asString)) (some n)
        | none => .error .valueError
    | none => finalize url (some (((urlparse url.data).path.dropWhile (· = '/')).asString)) none
  else if hasSubstring "youtube.com/embed/".data url.data then
    match searchEmbed url.data with
    | some run =>
        match qsGet (urlparse url.data).query "start" with
        | some sp =>
            match pyIntParse sp.data with
            | some n => finalize url (some run.asString) (some n)
            | none => .error .valueError
        | none => finalize url (some run.asString) none
    | none => finalize url none none
  else finalize url none none

/-! ## Lemmas about the time-string parser -/

/-- Every character of a part produced by `splitOnChar` is a character of
the split string. -/
lemma mem_of_mem_splitOnChar {c x : Char} :
    ∀ {l p : List Char}, p ∈ splitOnChar c l → x ∈ p → x ∈ l := by
  intro l
  induction l with
  | nil =>
      intro p hp hx
      simp only [splitOnChar, List.mem_singleton] at hp
      subst hp
      simp at hx
  | cons y ys ih =>
      intro p hp hx
      simp only [splitOnChar] at hp
      by_cases hy : y = c
      · rw [if_pos hy] at hp
        rcases List.mem_cons.mp hp with h | h
        · subst h; simp at hx
        · exact List.mem_cons_of_mem _ (ih h hx)
      · rw [if_neg hy] at hp
        rcases hsp : splitOnChar c ys with _ | ⟨q, qs⟩
        · rw [hsp] at hp
          simp only [List.mem_singleton] at hp
          subst hp
          have h' := List.mem_singleton.mp hx
          subst h'
          exact List.mem_cons_self _ _
        · rw [hsp] at hp
          rcases List.mem_cons.mp hp with h | h
          · subst h
            rcases List.mem_cons.mp hx with h' | h'
            · subst h'
              exact List.mem_cons_self _ _
            · exact List.mem_cons_of_mem _
                (ih (by rw [hsp]; exact List.mem_cons_self _ _) h')
          · exact List.mem_cons_of_mem _
              (ih (by rw [hsp]; exact List.mem_cons_of_mem _ h) hx)

/-- Every character surviving the whitespace trim of `pyIntParse` is a
character of the original list. -/
lemma mem_of_mem_trimWs {x : Char} {l : List Char}
    (h : x ∈ ((l.dropWhile Char.isWhitespace).reverse.dropWhile Char.isWhitespace).reverse) :
    x ∈ l := by
  rw [List.mem_reverse] at h
  have h2 : x ∈ (l.dropWhile Char.isWhitespace).reverse :=
    (List.dropWhile_sublist _).mem h
  rw [List.mem_reverse] at h2
  exact (List.dropWhile_sublist _).mem h2

/-- `int(...)` never returns a negative value on input without a `-`. -/
lemma pyIntParse_nonneg {l : List Char} {n : Int}
    (hneg : '-' ∉ l) (h : pyIntParse l = some n) : 0 ≤ n := by
  unfold pyIntParse at h
  split at h
  · exact absurd h (by simp)
  next c rest heq =>
    have hc : c ≠ '-' := by
      intro hc
      exact hneg (mem_of_mem_trimWs (l := l) (by rw [heq, hc]; exact List.mem_cons_self _ _))
    rw [if_neg hc] at h
    by_cases hp : c = '+'
    · rw [if_pos hp] at h
      split at h
      · injection h with h'
        exact h' ▸ Int.natCast_nonneg _
      · exact absurd h (by simp)
    · rw [if_neg hp] at h
      split at h
      · injection h with h'
        exact h' ▸ Int.natCast_nonneg _
      · exact absurd h (by simp)

/-- A string containing `:` is not all digits. -/
lemma all_digits_false_of_colon {l : List Char} (hc : ':' ∈ l) :
    l.all isDigitChar = false := by
  rw [← Bool.not_eq_true, List.all_eq_true]
  push_neg
  exact ⟨':', hc, by decide⟩

/-- The universal part of claim C3 as amended: a returned value is
non-negative when the input has no `-` character. -/
lemma parse_time_nonneg {s : String} {n : Int}
    (hneg : '-' ∉ s.data) (h : _parse_time_param s = some n) : 0 ≤ n := by
  unfold _parse_time_param at h
  split at h
  · injection h with h'; omega
  · split at h
    · injection h with h'
      exact h' ▸ Int.natCast_nonneg _
    · split at h
      · -- contains ':'
        split at h
        next p1 p2 p3 hsp =>
          have m1 : '-' ∉ p1 := fun hm =>
            hneg (mem_of_mem_splitOnChar (by rw [hsp]; simp) hm)
          have m2 : '-' ∉ p2 := fun hm =>
            hneg (mem_of_mem_splitOnChar (by rw [hsp]; simp) hm)
          have m3 : '-' ∉ p3 := fun hm =>
            hneg (mem_of_mem_splitOnChar (by rw [hsp]; simp) hm)
          split at h
          next a b d ha hb hd =>
            have := pyIntParse_nonneg m1 ha
            have := pyIntParse_nonneg m2 hb
            have := pyIntParse_nonneg m3 hd
            injection h with h'
            omega
          · exact absurd h (by simp)
        next p1 p2 hsp =>
          have m1 : '-' ∉ p1 := fun hm =>
            hneg (mem_of_mem_splitOnChar (by rw [hsp]; simp) hm)
          have m2 : '-' ∉ p2 := fun hm =>
            hneg (mem_of_mem_splitOnChar (by rw [hsp]; simp) hm)
          split at h
          next a b ha hb =>
            have := pyIntParse_nonneg m1 ha
            have := pyIntParse_nonneg m2 hb
            injection h with h'
            omega
          · exact absurd h (by simp)
        · injection h with h'
          exact h' ▸ Int.natCast_nonneg _
      · injection h with h'
        exact h' ▸ Int.natCast_nonneg _

/-! ## Claim theorems: time-string parser -/

/-- C3 (amended): `parseTime` returns 0 on the empty input, and whenever
it returns a value on an input containing no `-` character, that value
is non-negative.  (As stated, the claim is false: the code returns a
negative number for `"-1:30"` and raises for `"a:b"`.) -/
theorem parse_time_zero_empty_and_nonneg_without_minus :
    _parse_time_param "" = some 0 ∧
    ∀ (s : String) (n : Int), '-' ∉ s.data → _parse_time_param s = some n → 0 ≤ n :=
  ⟨by decide, fun _ _ hneg h => parse_time_nonneg hneg h⟩

/-- C3 witness: the amended theorem applied at `"1:30"`. -/
theorem parse_time_zero_empty_and_nonneg_without_minus_witness :
    (0 : Int) ≤ 90 :=
  parse_time_zero_empty_and_nonneg_without_minus.2 "1:30" 90 (by decide) (by decide)

/-- C3 counterexample: as stated ("for every input string, parseTime
returns a non-negative integer"), the claim is false: `"-1:30"` parses
to the negative value `-30`. -/
theorem parse_time_negative_counterexample :
    _parse_time_param "-1:30" = some (-30) ∧ ((-30 : Int) < 0) := by decide

/-- C4: the reference vectors of the spec hold of `_parse_time_param`. -/
theorem parse_time_reference_vectors :
    _parse_time_param "89" = some 89 ∧
    _parse_time_param "1:30" = some 90 ∧
    _parse_time_param "1:24:07" = some 5047 ∧
    _parse_time_param "2m30s" = some 150 ∧
    _parse_time_param "1h30m45s" = some 5445 ∧
    _parse_time_param "" = some 0 := by decide

/-- C7: no minute/second range validation: `"90s"` gives 90 and
`"99:99"` gives `99*60+99 = 6039`. -/
theorem parse_time_no_range_validation :
    _parse_time_param "90s" = some 90 ∧
    _parse_time_param "99:99" = some (99 * 60 + 99) ∧
    (99 * 60 + 99 : Int) = 6039 := by decide

/-- C10: an input containing `:` that splits into a part count other
than 2 or 3 does not raise: it falls through to the compound-duration
rule, whose value is 0 when no `h`/`m`/`s` unit matches (a full-string
integer match being impossible with a `:` present); `"1:2:3:4"` gives
0. -/
theorem parse_time_colon_fallthrough :
    (∀ (s : String), ':' ∈ s.data → (splitOnChar ':' s.data).length ≠ 2 →
        (splitOnChar ':' s.data).length ≠ 3 →
        _parse_time_param s = some ((compoundSeconds s.data : Int)) ∧
        (searchUnit 'h' s.data = none → searchUnit 'm' s.data = none →
          searchUnit 's' s.data = none → compoundSeconds s.data = 0)) ∧
    _parse_time_param "1:2:3:4" = some 0 := by
  constructor
  · intro s hc h2 h3
    have hne : s.data ≠ [] := fun h => by rw [h] at hc; simp at hc
    have hdig : s.data.all isDigitChar = false := all_digits_false_of_colon hc
    constructor
    · unfold _parse_time_param
      rw [if_neg hne]
      rw [hdig]
      simp only [Bool.false_eq_true, if_false]
      rw [if_pos hc]
      rcases hsp : splitOnChar ':' s.data with _ | ⟨p1, _ | ⟨p2, _ | ⟨p3, _ | ⟨p4, rest⟩⟩⟩⟩
      · rfl
      · rfl
      · exact absurd (by rw [hsp]; rfl) h2
      · exact absurd (by rw [hsp]; rfl) h3
      · rfl
    · intro hh hm hs
      unfold compoundSeconds
      rw [hh, hm, hs]
      simp [fullIntMatch, hdig]
  · decide

/-- C10 witness: the fall-through theorem applied at `"1:2:3:4"`. -/
theorem parse_time_colon_fallthrough_witness :
    _parse_time_param "1:2:3:4" = some ((compoundSeconds "1:2:3:4".data : Int)) ∧
    compoundSeconds "1:2:3:4".data = 0 := by
  have h := parse_time_colon_fallthrough.1 "1:2:3:4" (by decide) (by decide) (by decide)
  exact ⟨h.1, h.2 (by decide) (by decide) (by decide)⟩

/-! ## Claim theorems: segment selector -/

/-- The one-pass selection loop computes the filtered entry list and its
texts, appended to the running accumulators. -/
lemma selectionFold_eq (s e : ℚ) :
    ∀ (entries : List CaptionEntry) (accE : List CaptionEntry) (accT : List String),
      entries.foldl
        (fun (acc : List CaptionEntry × List String) seg =>
          if overlaps s e seg then (acc.1 ++ [seg], acc.2 ++ [seg.text]) else acc)
        (accE, accT)
      = (accE ++ selectEntries entries s e,
         accT ++ (selectEntries entries s e).map CaptionEntry.text) := by
  intro entries
  induction entries with
  | nil => intro accE accT; simp [selectEntries]
  | cons x xs ih =>
      intro accE accT
      by_cases h : overlaps s e x
      · simp only [List.foldl_cons, if_pos h]
        rw [ih]
        simp [selectEntries, List.filter_cons, h]
      · simp only [List.foldl_cons, if_neg h]
        rw [ih]
        simp [selectEntries, List.filter_cons, h]

/-- C1: the selection loop includes an entry exactly when
`e.start + e.duration >= start_seconds` and `e.start <= end_seconds`
(closed-interval overlap); in the degenerate point window
`start = end = 5`, the entry ending exactly at 5 and the entry starting
exactly at 5 are both included. -/
theorem select_overlap_iff :
    (∀ (entries : List CaptionEntry) (s e : ℚ) (en : CaptionEntry),
        en ∈ selectEntries entries s e ↔
          en ∈ entries ∧ s ≤ en.start + en.duration ∧ en.start ≤ e) ∧
    (⟨0, 5, "a"⟩ : CaptionEntry) ∈ selectEntries [⟨0, 5, "a"⟩, ⟨5, 5, "b"⟩] 5 5 ∧
    (⟨5, 5, "b"⟩ : CaptionEntry) ∈ selectEntries [⟨0, 5, "a"⟩, ⟨5, 5, "b"⟩] 5 5 := by
  refine ⟨?_, ?_, ?_⟩
  · intro entries s e en
    simp [selectEntries, overlaps, List.mem_filter, and_assoc]
  · norm_num [selectEntries, overlaps, List.filter]
  · norm_num [selectEntries, overlaps, List.filter]

/-- C2 counterexample: with `duration = 0` given and no explicit end, the
resolved end is not `start + duration` (Python `elif duration:` treats 0
as absent): with one entry `{start 10, duration 5}` and `start = 3` the
code resolves the end to 15, not 3. -/
theorem resolveEnd_zero_duration_counterexample :
    resolveEnd [⟨10, 5, "x"⟩] (some 0) 3 none ≠ some ((3 : ℚ) + ((0 : Int) : ℚ)) ∧
    resolveEnd [⟨10, 5, "x"⟩] (some 0) 3 none = some 15 := by
  constructor <;> norm_num [resolveEnd]

/-- C2 (amended): the end boundary is resolved in priority order — an
explicit end time is used (parsed when a string); else a given *nonzero*
duration gives `start_seconds + duration` (a zero duration is falsy in
`elif duration:` and behaves as if absent); else the last entry's
`start + duration`, and `start_seconds` on an empty entry list — and the
`end_seconds` field of `extract_segment` is exactly the resolved value. -/
theorem end_resolution_priority (vid : String) (entries : List CaptionEntry)
    (duration : Option Int) (start_seconds : ℚ) (end_time : Option TimeParam) :
    (∀ n : Int, end_time = some (.int n) →
        resolveEnd entries duration start_seconds end_time = some ((n : ℚ))) ∧
    (∀ s : String, end_time = some (.str s) →
        resolveEnd entries duration start_seconds end_time =
          (_parse_time_param s).map (fun n => ((n : ℚ)))) ∧
    (∀ d : Int, end_time = none → duration = some d → d ≠ 0 →
        resolveEnd entries duration start_seconds end_time =
          some (start_seconds + (d : ℚ))) ∧
    (end_time = none → durationTruthy duration = false →
        resolveEnd entries duration start_seconds end_time =
          some (match entries.getLast? with
                | some last => last.start + last.duration
                | none => start_seconds)) ∧
    (end_time = none → durationTruthy duration = false → entries = [] →
        resolveEnd entries duration start_seconds end_time = some start_seconds) ∧
    (∀ seg : ExtractedSegment,
        extract_segment vid entries duration start_seconds end_time = some seg →
        resolveEnd entries duration start_seconds end_time = some seg.end_seconds) := by
  refine ⟨?_, ?_, ?_, ?_, ?_, ?_⟩
  · intro n h; subst h; rfl
  · intro s h; subst h
    cases hp : _parse_time_param s <;> simp [resolveEnd, hp]
  · intro d h hd hne
    subst h; subst hd
    simp only [resolveEnd]
    rw [if_pos hne]
  · intro h hf
    subst h
    cases duration with
    | none => cases hg : entries.getLast? <;> simp [resolveEnd, hg]
    | some d =>
        simp only [durationTruthy, bne_eq_false_iff_eq] at hf
        subst hf
        cases hg : entries.getLast? <;> simp [resolveEnd, hg]
  · intro h hf he
    subst h; subst he
    cases duration with
    | none => rfl
    | some d =>
        simp only [durationTruthy, bne_eq_false_iff_eq] at hf
        subst hf
        simp [resolveEnd]
  · intro seg h
    unfold extract_segment at h
    cases hr : resolveEnd entries duration start_seconds end_time with
    | none => rw [hr] at h; exact absurd h (by simp)
    | some e =>
        rw [hr] at h
        simp only [Option.some.injEq] at h
        subst h
        rfl

/-- C2 witness: the amended theorem applied with a nonzero duration. -/
theorem end_resolution_priority_witness :
    resolveEnd [] (some 7) 3 none = some ((3 : ℚ) + ((7 : Int) : ℚ)) :=
  (end_resolution_priority "v" [] (some 7) 3 none).2.2.1 7 rfl rfl (by decide)

/-- C8: the output text is exactly the selected entries' texts joined
with a single space in their original relative order, and the output
entry list is exactly the order-preserving (no re-sorting, no
de-duplication) filtered list. -/
theorem segment_text_join (vid : String) (entries : List CaptionEntry)
    (duration : Option Int) (start_seconds : ℚ) (end_time : Option TimeParam)
    (seg : ExtractedSegment)
    (h : extract_segment vid entries duration start_seconds end_time = some seg) :
    seg.entries = selectEntries entries seg.start_seconds seg.end_seconds ∧
    seg.text = joinSpace (List.map CaptionEntry.text seg.entries) := by
  unfold extract_segment at h
  cases hr : resolveEnd entries duration start_seconds end_time with
  | none => rw [hr] at h; exact absurd h (by simp)
  | some e =>
      rw [hr] at h
      simp only [Option.some.injEq] at h
      subst h
      constructor
      · show (selectionFold start_seconds e entries).1 = _
        rw [selectionFold, selectionFold_eq]
        simp
      · show joinSpace (selectionFold start_seconds e entries).2
            = joinSpace (List.map CaptionEntry.text (selectionFold start_seconds e entries).1)
        rw [selectionFold, selectionFold_eq]
        simp

/-- C8 witness: the theorem applied at a concrete extraction. -/
theorem segment_text_join_witness :
    (⟨"v", 0, 5, "a", [⟨0, 5, "a"⟩]⟩ : ExtractedSegment).entries
        = selectEntries [⟨0, 5, "a"⟩]
            (⟨"v", 0, 5, "a", [⟨0, 5, "a"⟩]⟩ : ExtractedSegment).start_seconds
            (⟨"v", 0, 5, "a", [⟨0, 5, "a"⟩]⟩ : ExtractedSegment).end_seconds ∧
    (⟨"v", 0, 5, "a", [⟨0, 5, "a"⟩]⟩ : ExtractedSegment).text
        = joinSpace (List.map CaptionEntry.text
            (⟨"v", 0, 5, "a", [⟨0, 5, "a"⟩]⟩ : ExtractedSegment).entries) :=
  segment_text_join "v" [⟨0, 5, "a"⟩] none 0 none _
    (by norm_num [extract_segment, selectionFold, resolveEnd, overlaps, List.foldl, joinSpace])

/-- C9: the selector is deterministic — identical inputs give identical
`ExtractedSegment` values (the embedding is a pure function of its
arguments; the source mutates no state shared between calls). -/
theorem extract_segment_deterministic (vid1 vid2 : String)
    (entries1 entries2 : List CaptionEntry) (duration1 duration2 : Option Int)
    (start1 start2 : ℚ) (endt1 endt2 : Option TimeParam)
    (hv : vid1 = vid2) (he : entries1 = entries2) (hd : duration1 = duration2)
    (hs : start1 = start2) (ht : endt1 = endt2) :
    extract_segment vid1 entries1 duration1 start1 endt1 =
      extract_segment vid2 entries2 duration2 start2 endt2 := by
  subst_vars; rfl

/-- C9 witness: the determinism theorem at a concrete input. -/
theorem extract_segment_deterministic_witness :
    extract_segment "v" [⟨0, 5, "a"⟩] none 0 none =
      extract_segment "v" [⟨0, 5, "a"⟩] none 0 none :=
  extract_segment_deterministic "v" "v" [⟨0, 5, "a"⟩] [⟨0, 5, "a"⟩] none none 0 0
    none none rfl rfl rfl rfl rfl

/-! ## Claim theorems: URL parser

The three URL shapes below are modelled from the words of spec §4.1 (not
from the code) so that the parser can be compared against them. -/

/-- Spec §4.1 shape 1: host `youtube.com`/`www.youtube.com`, path
`/watch`, identifier from query parameter `v`. -/
def specShape1Id (url : String) : Option String :=
  if ((urlparse url.data).hostname = some "www.youtube.com" ∨
      (urlparse url.data).hostname = some "youtube.com") ∧
     (urlparse url.data).path = "/watch".data
  then qsGet (urlparse url.data).query "v" else none

/-- Spec §4.1 shape 2: host `youtu.be`/`www.youtu.be`, identifier is the
path with leading slashes stripped. -/
def specShape2Id (url : String) : Option String :=
  if (urlparse url.data).hostname = some "youtu.be" ∨
     (urlparse url.data).hostname = some "www.youtu.be"
  then some (((urlparse url.data).path.dropWhile (· = '/')).asString) else none

/-- Spec §4.1 shape 3: any URL containing `youtube.com/embed/`,
identifier from the pattern match after `embed/`. -/
def specShape3Id (url : String) : Option String :=
  if hasSubstring "youtube.com/embed/".data url.data
  then (searchEmbed url.data).map List.asString else none

/-- The URL's inline `t` query parameter, when present, parses without
raising. -/
def tParamOk (url : String) : Prop :=
  ∀ ts : String, qsGet (urlparse url.data).query "t" = some ts →
    (_parse_time_param ts).isSome

/-- The URL's inline `start` query parameter, when present, parses as a
plain integer without raising. -/
def startParamOk (url : String) : Prop :=
  ∀ sp : String, qsGet (urlparse url.data).query "start" = some sp →
    (pyIntParse sp.data).isSome

/-- The URL's hostname is none of the four hostnames tested by the first
two branches of `parse_youtube_url`. -/
def notYouTubeHost (url : String) : Prop :=
  (urlparse url.data).hostname ≠ some "www.youtube.com" ∧
  (urlparse url.data).hostname ≠ some "youtube.com" ∧
  (urlparse url.data).hostname ≠ some "youtu.be" ∧
  (urlparse url.data).hostname ≠ some "www.youtu.be"

/-- C5: the embed branch is shadowed.  For the embed URL of the repo's
own test (`src/test_youtube_extractor.py`, expected to yield
(`dQw4w9WgXcQ`, 60)), spec shape 3 extracts the identifier and the
`start` parameter holds `60`, yet the code raises its invalid-URL
`ValueError`: the hostname `www.youtube.com` selects the `/watch`
branch, which does not match, and the `elif` with the embed pattern is
never reached. -/
theorem embed_branch_shadowed :
    specShape3Id "https://www.youtube.com/embed/dQw4w9WgXcQ?start=60" = some "dQw4w9WgXcQ" ∧
    qsGet (urlparse "https://www.youtube.com/embed/dQw4w9WgXcQ?start=60".data).query "start"
      = some "60" ∧
    parse_youtube_url "https://www.youtube.com/embed/dQw4w9WgXcQ?start=60"
      = .error (.invalidURL "https://www.youtube.com/embed/dQw4w9WgXcQ?start=60") := by
  decide

/-- C6 counterexample: as stated, the exactness claim is false: the URL
`https://youtube.com/watch?v=abc&t=1:x` matches shape 1 with the
non-empty identifier `abc`, yet the parser raises (the `ValueError` of
`int('x')` inside `_parse_time_param`, not even the invalid-URL one). -/
theorem parse_shape_exactness_counterexample :
    specShape1Id "https://youtube.com/watch?v=abc&t=1:x" = some "abc" ∧
    "abc" ≠ "" ∧
    parse_youtube_url "https://youtube.com/watch?v=abc&t=1:x" = .error .valueError := by
  decide

/-- C6 (amended): with shape 3 restricted to URLs whose hostname is not
one of the four hostnames of the first two branches (the code's `elif`
order), and provided any inline `t`/`start` parameter present parses
without raising: a shape with a non-empty extractable identifier makes
the parser return exactly that identifier without raising, and when
shape 1 extracts nothing, shape 2 extracts at most the empty identifier,
and (outside the four hostnames) shape 3 extracts nothing, the parser
fails with the invalid-URL error. -/
theorem parse_shape_exactness (url : String) :
    (∀ v : String, specShape1Id url = some v → v ≠ "" → tParamOk url →
        ∃ t, parse_youtube_url url = .ok (v, t)) ∧
    (∀ v : String, specShape2Id url = some v → v ≠ "" → tParamOk url →
        ∃ t, parse_youtube_url url = .ok (v, t)) ∧
    (∀ v : String, notYouTubeHost url → specShape3Id url = some v → v ≠ "" →
        startParamOk url →
        ∃ t, parse_youtube_url url = .ok (v, t)) ∧
    (specShape1Id url = none →
     (∀ v : String, specShape2Id url = some v → v = "") →
     (notYouTubeHost url → specShape3Id url = none) →
     tParamOk url →
     parse_youtube_url url = .error (.invalidURL url)) := by
  refine ⟨?_, ?_, ?_, ?_⟩
  · -- shape 1
    intro v h hv ht
    unfold specShape1Id at h
    split at h
    case isFalse => exact absurd h (by simp)
    case isTrue hcond =>
      unfold parse_youtube_url
      rw [if_pos hcond.1, if_pos hcond.2]
      cases hq : qsGet (urlparse url.data).query "t" with
      | none =>
          refine ⟨none, ?_⟩
          simp only [hq, h, finalize]
          rw [if_neg hv]
      | some ts =>
          have hts := ht ts hq
          rw [Option.isSome_iff_exists] at hts
          obtain ⟨n, hn⟩ := hts
          refine ⟨some n, ?_⟩
          simp only [hq, hn, h, finalize]
          rw [if_neg hv]
  · -- shape 2
    intro v h hv ht
    unfold specShape2Id at h
    split at h
    case isFalse => exact absurd h (by simp)
    case isTrue hcond =>
      simp only [Option.some.injEq] at h
      have hne1 : ¬((urlparse url.data).hostname = some "www.youtube.com" ∨
          (urlparse url.data).hostname = some "youtube.com") := by
        rcases hcond with h1 | h1 <;> rw [h1] <;> decide
      unfold parse_youtube_url
      rw [if_neg hne1, if_pos hcond]
      cases hq : qsGet (urlparse url.data).query "t" with
      | none =>
          refine ⟨none, ?_⟩
          simp only [hq, h, finalize]
          rw [if_neg hv]
      | some ts =>
          have hts := ht ts hq
          rw [Option.isSome_iff_exists] at hts
          obtain ⟨n, hn⟩ := hts
          refine ⟨some n, ?_⟩
          simp only [hq, hn, h, finalize]
          rw [if_neg hv]
  · -- shape 3, under the hostname restriction
    intro v hn h hv hs
    obtain ⟨hn1, hn2, hn3, hn4⟩ := hn
    unfold specShape3Id at h
    split at h
    case isFalse => exact absurd h (by simp)
    case isTrue hsub =>
      rw [Option.map_eq_some'] at h
      obtain ⟨run, hrun, hrv⟩ := h
      unfold parse_youtube_url
      rw [if_neg (by simp [hn1, hn2]), if_neg (by simp [hn3, hn4]), if_pos hsub]
      cases hq : qsGet (urlparse url.data).query "start" with
      | none =>
          refine ⟨none, ?_⟩
          simp only [hrun, hq, hrv, finalize]
          rw [if_neg hv]
      | some sp =>
          have hsp := hs sp hq
          rw [Option.isSome_iff_exists] at hsp
          obtain ⟨n, hp⟩ := hsp
          refine ⟨some n, ?_⟩
          simp only [hrun, hq, hp, hrv, finalize]
          rw [if_neg hv]
  · -- no shape matches: the invalid-URL error
    intro h1 h2 h3 ht
    unfold parse_youtube_url
    by_cases hc1 : (urlparse url.data).hostname = some "www.youtube.com" ∨
        (urlparse url.data).hostname = some "youtube.com"
    · rw [if_pos hc1]
      by_cases hp : (urlparse url.data).path = "/watch".data
      · rw [if_pos hp]
        have hv : qsGet (urlparse url.data).query "v" = none := by
          unfold specShape1Id at h1
          rw [if_pos ⟨hc1, hp⟩] at h1
          exact h1
        cases hq : qsGet (urlparse url.data).query "t" with
        | none => simp only [hq, hv, finalize]
        | some ts =>
            have hts := ht ts hq
            rw [Option.isSome_iff_exists] at hts
            obtain ⟨n, hn⟩ := hts
            simp only [hq, hn, hv, finalize]
      · rw [if_neg hp]
        simp only [finalize]
    · rw [if_neg hc1]
      by_cases hc2 : (urlparse url.data).hostname = some "youtu.be" ∨
          (urlparse url.data).hostname = some "www.youtu.be"
      · rw [if_pos hc2]
        have hv : (((urlparse url.data).path.dropWhile (· = '/')).asString) = "" := by
          refine h2 _ ?_
          unfold specShape2Id
          rw [if_pos hc2]
        cases hq : qsGet (urlparse url.data).query "t" with
        | none =>
            simp only [hq, finalize]
            rw [if_pos hv]
        | some ts =>
            have hts := ht ts hq
            rw [Option.isSome_iff_exists] at hts
            obtain ⟨n, hn⟩ := hts
            simp only [hq, hn, finalize]
            rw [if_pos hv]
      · have hnh : notYouTubeHost url := by
          rw [not_or] at hc1 hc2
          exact ⟨hc1.1, hc1.2, hc2.1, hc2.2⟩
        have h3' := h3 hnh
        rw [if_neg hc2]
        by_cases hsub : hasSubstring "youtube.com/embed/".data url.data = true
        · rw [if_pos hsub]
          have hse : searchEmbed url.data = none := by
            unfold specShape3Id at h3'
            rw [if_pos hsub] at h3'
            exact Option.map_eq_none'.mp h3'
          simp only [hse, finalize]
        · rw [if_neg hsub]
          simp only [finalize]

/-- C6 witness: the amended exactness theorem applied at a shape-2 URL. -/
theorem parse_shape_exactness_witness :
    ∃ t, parse_youtube_url "https://youtu.be/abc" = .ok ("abc", t) :=
  (parse_shape_exactness "https://youtu.be/abc").2.1 "abc" (by decide) (by decide)
    (fun ts h => by
      rw [show qsGet (urlparse "https://youtu.be/abc".data).query "t" = none from by decide] at h
      exact Option.noConfusion h)

/-- C1 witness: the membership characterisation applied at a concrete
entry and window. -/
theorem select_overlap_iff_witness :
    (⟨0, 5, "a"⟩ : CaptionEntry) ∈ selectEntries [⟨0, 5, "a"⟩] 5 5 :=
  (select_overlap_iff.1 [⟨0, 5, "a"⟩] 5 5 ⟨0, 5, "a"⟩).mpr
    ⟨by simp, by norm_num, by norm_num⟩

end YT
